import Mathlib

/-!
# A shallow embedding of redis-memolock-node

This file embeds the core of the `redis-memolock-node` package in Lean 4 and
proves properties of the embedding.

Two source files are modelled:

* `src/index.ts` (`MemolockCache`): the lock/wait coordinator.  Its async
  control flow is embedded as a pure function `getModel` /
  `getLockOrWaitForLockModel` over a per-attempt environment
  (`AttemptEnv`: the responses of the backing store and of the fetch), a
  JavaScript context (`JsCtx`: the JSON builtins and whether an error handler
  is configured), and the in-process `isLockedCache` membership bit for the
  key in question, returning the settled result together with the trace of
  commands dispatched to the backing store.
* `src/redis-util.ts` (`RedisUtilService`): the one-shot subscription
  multiplexer.  Its mutable `subInfo` registry is embedded as `MuxState`;
  each operation (inbound message, timer firing, `subscribeOnce`, upstream
  subscribe failure) is a state transformer that also emits the list of
  callback invocations and backing-store commands it performs.

Concurrent interleavings of several local callers of `get` are modelled by a
labelled transition system (`Step` / `Reach`) whose atomic steps are the
synchronous segments between awaited operations of `get` /
`getLockOrWaitForLock` and the multiplexer callbacks.
-/

namespace Memolock

/-- A JavaScript `Error`: only the message is observable in this model. -/
structure JsError where
  message : String
deriving DecidableEq, Repr

/-- Commands that can appear inside a pipelined batch
(`redisClient.pipeline()...exec()` in `getLockOrWaitForLock`). -/
inductive RedisCmd where
  | setPx (key value : String) (px : Nat)
  | publish (channel payload : String)
  | del (key : String)
deriving DecidableEq, Repr

/-- Observable events of a run of `get` / `getLockOrWaitForLock`:
backing-store commands and error-handler invocations, in dispatch order. -/
inductive Ev where
  /-- `redisClient.get(key)` returning `result` (`none` = Redis nil). -/
  | getCache (key : String) (result : Option String)
  /-- `redisClient.set(lockKey, 'locked', 'PX', px, 'NX')`;
  `acquired` records whether the reply was `'OK'`. -/
  | setNx (lockKey : String) (px : Nat) (acquired : Bool)
  /-- One pipelined batch dispatched by `pipeline()...exec()`. -/
  | pipeline (cmds : List RedisCmd)
  /-- The best-effort `redisClient.del(lockKey)` after a fetch failure;
  `result` is `some err` when that del itself failed. -/
  | delLock (lockKey : String) (result : Option JsError)
  /-- An invocation of the configured `errorHandler`. -/
  | handlerError (e : JsError)
  /-- `redisUtil.subscribeOnce(channel, { timeoutMs, ... })`. -/
  | subscribeOnceEv (channel : String) (timeoutMs : Nat)
deriving DecidableEq, Repr

/-- Whether an event is an invocation of the `errorHandler`. -/
def Ev.isHandlerError : Ev → Bool
  | .handlerError _ => true
  | _ => false

/-- `ttlMs` may be a number or a function of the data
(`ttlMs?: number | ((data: T) => number)`). -/
inductive TtlSpec (T : Type) where
  | const (n : Nat)
  | fn (f : T → Nat)

/-- `MemolockOptWithTtl<T>`: the options record consumed by `get`.
Optional fields are `Option`; `decode` may throw, hence `Except`. -/
structure MemolockOpt (T : Type) where
  ttlMs : TtlSpec T
  lockTimeout : Option Nat := none
  maxAttempts : Option Nat := none
  forceRefresh : Bool := false
  encode : Option (T → String) := none
  decode : Option (String → Except JsError T) := none
  cacheIf : Option (T → Bool) := none

/-- The JavaScript context: the JSON builtins at type `T`
(`JSON.stringify` returns `undefined` – modelled `none` – on `undefined`
input, `JSON.parse` may throw) and whether the cache instance was
constructed with an `errorHandler`. -/
structure JsCtx (T : Type) where
  stringify : T → Option String
  jsonParse : String → Except JsError T
  hasErrorHandler : Bool

/-- Outcome of a one-shot subscription from the waiter's point of view:
either a payload arrives on the channel, or the wait fails
(timeout of the armed timer, or upstream subscribe failure), which reaches
the waiter's `onError`. -/
inductive WaiterOutcome where
  | message (payload : String)
  | failure
deriving DecidableEq, Repr

/-- The environment of one attempt of `get`: the responses the backing
store and the user-supplied fetch give to this attempt's operations. -/
structure AttemptEnv (T : Type) where
  /-- Response to `redisClient.get(key)`. -/
  cached : Option String
  /-- Whether `SET lockKey 'locked' PX lockTimeout NX` replied `'OK'`. -/
  acquired : Bool
  /-- Result of the user-supplied `fetch()` (`error` = it threw/rejected). -/
  fetch : Except JsError T
  /-- Result of the best-effort `del(lockKey)` after a fetch failure:
  `none` if it succeeded, `some err` if it rejected with `err`. -/
  delResult : Option JsError
  /-- What the one-shot subscription delivers if this attempt waits. -/
  waiter : WaiterOutcome

/-- The settled outcome of a `get` call together with its observable
behaviour: the trace of dispatched events, whether `key` is in
`isLockedCache` afterwards, and the index of the last attempt executed. -/
structure RunResult (T : Type) where
  result : Except JsError T
  trace : List Ev
  lockedAfter : Bool
  lastAttempt : Nat

/-- `const DEFAULT_LOCK_TIMEOUT = 1000`. -/
def DEFAULT_LOCK_TIMEOUT : Nat := 1000

/-- `const DEFAULT_MAX_ATTEMPTS = 3`. -/
def DEFAULT_MAX_ATTEMPTS : Nat := 3

/-- `opt.lockTimeout ??= DEFAULT_LOCK_TIMEOUT`. -/
def lockTimeoutOf {T : Type} (opt : MemolockOpt T) : Nat :=
  opt.lockTimeout.getD DEFAULT_LOCK_TIMEOUT

/-- `opt.maxAttempts ?? DEFAULT_MAX_ATTEMPTS`. -/
def maxAttemptsOf {T : Type} (opt : MemolockOpt T) : Nat :=
  opt.maxAttempts.getD DEFAULT_MAX_ATTEMPTS

/-- JavaScript truthiness of a `string | null` value: truthy iff present
and non-empty. -/
def truthy : Option String → Bool
  | none => false
  | some s => s.length != 0

/-- `opt.decode ? opt.decode(message) : JSON.parse(message)` – the decoding
applied both on a cache hit and inside the waiter's `subscribeOnce` decode
callback. -/
def doDecode {T : Type} (ctx : JsCtx T) (opt : MemolockOpt T) (s : String) :
    Except JsError T :=
  match opt.decode with
  | some d => d s
  | none => ctx.jsonParse s

/-- `getTtlMs(data, ttlMs)`: apply `ttlMs` if it is a function, else return
the constant. -/
def getTtlMs {T : Type} (data : T) (ttlMs : TtlSpec T) : Nat :=
  match ttlMs with
  | .fn f => f data
  | .const n => n

/-- `getEncodedData(data, encodeFn)`: use `encodeFn` when given, else
`JSON.stringify`, substituting the literal `'null'` when the stringified
form is absent (`undefined`) or empty. -/
def getEncodedData {T : Type} (stringify : T → Option String) (data : T)
    (encodeFn : Option (T → String)) : String :=
  match encodeFn with
  | some f => f data
  | none =>
    match stringify data with
    | some str => if str.length != 0 then str else "null"
    | none => "null"

/-- `opt.cacheIf ? opt.cacheIf(value) : true`. -/
def cacheIfApplied {T : Type} (opt : MemolockOpt T) (value : T) : Bool :=
  match opt.cacheIf with
  | some p => p value
  | none => true

/-- Whether this attempt's one-shot subscription ends in the waiter's
`onError` (timeout / upstream failure, or a message whose decode throws). -/
def waiterErrors {T : Type} (ctx : JsCtx T) (opt : MemolockOpt T)
    (e : AttemptEnv T) : Bool :=
  match e.waiter with
  | .failure => true
  | .message payload =>
    match doDecode ctx opt payload with
    | .error _ => true
    | .ok _ => false

mutual

/-- `MemolockCache.get(key, opt, fetch, attempts)`: read the cache (unless
`forceRefresh`); on a truthy value decode and return it, else fall through
to `getLockOrWaitForLock`.  `locked` is whether `key ∈ isLockedCache` on
entry. -/
def getModel {T : Type} (ctx : JsCtx T) (envs : Nat → AttemptEnv T)
    (opt : MemolockOpt T) (key : String) (locked : Bool) (attempts : Nat) :
    RunResult T :=
  let e := envs attempts
  let value : Option String := if opt.forceRefresh then none else e.cached
  let readTrace : List Ev :=
    if opt.forceRefresh then [] else [.getCache key e.cached]
  if truthy value then
    { result := doDecode ctx opt (value.getD "")
      trace := readTrace
      lockedAfter := locked
      lastAttempt := attempts }
  else
    let r := getLockOrWaitForLockModel ctx envs opt key locked attempts
    { r with trace := readTrace ++ r.trace }
termination_by (maxAttemptsOf opt - attempts, 1)
decreasing_by omega

/-- `MemolockCache.getLockOrWaitForLock(key, opt, fetch, attempts)`.
`isLocked` short-circuits on local membership, otherwise adds the key
locally and attempts `SET NX`; the waiter branch subscribes once and its
`onError` either retries `get` with `attempts + 1` or rejects; the fetcher
branch fetches, encodes, pipelines and releases. -/
def getLockOrWaitForLockModel {T : Type} (ctx : JsCtx T)
    (envs : Nat → AttemptEnv T) (opt : MemolockOpt T) (key : String)
    (locked : Bool) (attempts : Nat) : RunResult T :=
  let e := envs attempts
  let lockTimeout := lockTimeoutOf opt
  let lockKey := key ++ ":lock"
  let keyChannel := key ++ "_done"
  -- isLocked(key, lockKey, lockTimeout): local short-circuit, else add the
  -- key to isLockedCache and attempt SET NX; afterwards key is locked
  -- locally in every case.
  let isLockedRes : Bool := locked || !e.acquired
  let isLockedTrace : List Ev :=
    if locked then [] else [.setNx lockKey lockTimeout e.acquired]
  if isLockedRes then
    -- waiter branch: isLockedCache.add(key); subscribeOnce(keyChannel, ...)
    let subTrace := isLockedTrace ++ [Ev.subscribeOnceEv keyChannel lockTimeout]
    match e.waiter with
    | .message payload =>
      match doDecode ctx opt payload with
      | .ok data =>
        -- onSuccess: isLockedCache.delete(key); resolve(data)
        { result := .ok data, trace := subTrace
          lockedAfter := false, lastAttempt := attempts }
      | .error _ =>
        -- decode threw inside the multiplexer: the waiter's onError runs
        if h : attempts < maxAttemptsOf opt - 1 then
          let r := getModel ctx envs opt key false (attempts + 1)
          { r with trace := subTrace ++ r.trace }
        else
          { result := .error ⟨"Never received message that key was unlocked."⟩
            trace := subTrace, lockedAfter := false, lastAttempt := attempts }
    | .failure =>
      -- timeout or upstream subscribe failure: the waiter's onError runs
      if h : attempts < maxAttemptsOf opt - 1 then
        let r := getModel ctx envs opt key false (attempts + 1)
        { r with trace := subTrace ++ r.trace }
      else
        { result := .error ⟨"Never received message that key was unlocked."⟩
          trace := subTrace, lockedAfter := false, lastAttempt := attempts }
  else
    -- fetcher branch
    match e.fetch with
    | .error err =>
      -- .catch: best-effort del(lockKey); on del failure pass the
      -- original fetch error to the errorHandler (if configured);
      -- isLockedCache.delete(key); rethrow the fetch error.
      let handlerTrace : List Ev :=
        match e.delResult with
        | some _ => if ctx.hasErrorHandler then [.handlerError err] else []
        | none => []
      { result := .error err
        trace := isLockedTrace ++ [Ev.delLock lockKey e.delResult] ++ handlerTrace
        lockedAfter := false, lastAttempt := attempts }
    | .ok value =>
      let encodedValue := getEncodedData ctx.stringify value opt.encode
      let shouldCache := cacheIfApplied opt value
      if shouldCache then
        let ttlMs := getTtlMs value opt.ttlMs
        { result := .ok value
          trace := isLockedTrace ++
            [Ev.pipeline [.setPx key encodedValue ttlMs,
                           .publish keyChannel encodedValue,
                           .del lockKey]]
          lockedAfter := false, lastAttempt := attempts }
      else
        { result := .ok value
          trace := isLockedTrace ++
            [Ev.pipeline [.publish keyChannel encodedValue, .del lockKey]]
          lockedAfter := false, lastAttempt := attempts }
termination_by (maxAttemptsOf opt - attempts, 0)
decreasing_by all_goals omega

end

/-! ## A concrete value type with the JSON builtins

`JSON.stringify` / `JSON.parse` are external builtins of the JavaScript
runtime (the spec treats the JSON codec as an external collaborator); the
coordinator model above is parametric in them through `JsCtx`.  For
concrete instantiations we model JavaScript values as `JsValue`
(`undefined` or a primitive JSON value) with a faithful restriction of the
builtins to those values. -/

/-- A primitive JSON value. -/
inductive Json where
  | null
  | bool (b : Bool)
  | num (n : Int)
  | str (s : String)
deriving DecidableEq, Repr

/-- A JavaScript value a fetch can produce: `undefined` or a JSON value. -/
inductive JsValue where
  | undef
  | json (j : Json)
deriving DecidableEq, Repr

/-- Serialization of a primitive JSON value (strings are assumed to need no
escaping). -/
def Json.serialize : Json → String
  | .null => "null"
  | .bool true => "true"
  | .bool false => "false"
  | .num n => toString n
  | .str s => "\"" ++ s ++ "\""

/-- `JSON.stringify` restricted to `JsValue`: `undefined` stringifies to
`undefined` (modelled `none`). -/
def jsStringify : JsValue → Option String
  | .undef => none
  | .json j => some j.serialize

/-- `JSON.parse` restricted to primitive values; anything unrecognized
throws, as the builtin does. -/
def jsParse (s : String) : Except JsError JsValue :=
  if s = "null" then .ok (.json .null)
  else if s = "true" then .ok (.json (.bool true))
  else if s = "false" then .ok (.json (.bool false))
  else if s.startsWith "\"" && s.endsWith "\"" && decide (2 ≤ s.length) then
    .ok (.json (.str ((s.drop 1).dropRight 1)))
  else
    match s.toInt? with
    | some n => .ok (.json (.num n))
    | none => .error ⟨"Unexpected token in JSON"⟩

/-- The `JsCtx` of a cache instance at type `JsValue` constructed with an
`errorHandler`. -/
def jsValueCtx : JsCtx JsValue :=
  { stringify := jsStringify, jsonParse := jsParse, hasErrorHandler := true }

/-! ## The one-shot subscription multiplexer (`src/redis-util.ts`)

User-supplied callbacks are modelled by numeric identifiers; "callback `cb`
was invoked" is an emitted event, and a behaviour oracle `behav` tells
whether the user code of callback `cb` throws when run (consulted where the
source wraps the invocation in `safeCall`).  Each waiter's `onError` is
registered through the single-fire wrapper of `subscribeOnce` (lines 58-65
of `redis-util.ts`); the wrapper's `hadCallback` flags live in
`MuxState.fired`. -/

/-- One entry of `subInfo`: the per-channel registry
`{ callbacks, errCallbacks, timeouts, decode }`. -/
structure SubEntry (T : Type) where
  callbacks : List Nat
  errCallbacks : List Nat
  timeouts : List Nat
  decode : String → Except JsError T

/-- The mutable state of a `RedisUtilService`: the `subInfo` map plus the
`hadCallback` flag of every issued `onError` wrapper. -/
structure MuxState (T : Type) where
  subInfo : String → Option (SubEntry T)
  fired : Nat → Bool

/-- Observable events of a multiplexer operation, in order. -/
inductive MuxEv (T : Type) where
  /-- `delete this.subInfo[channel]` in the message handler. -/
  | deleteEntry (channel : String)
  /-- An `onError` wrapper was called (with `(timeout, err)`). -/
  | wrapperCall (cb : Nat) (timeout : Bool) (err : Option JsError)
  /-- The underlying user `onError` actually ran (wrapper let it through). -/
  | onErrorCall (cb : Nat) (timeout : Bool) (err : Option JsError)
  /-- A success callback was invoked with the decoded data. -/
  | invokeSuccess (cb : Nat) (data : T)
  /-- `clearTimeout(timeout)`. -/
  | clearTimeoutEv (t : Nat)
  /-- `redisSubClient.unsubscribe(channel)`. -/
  | unsubscribeEv (channel : String)
  /-- `redisSubClient.subscribe(channel)`. -/
  | subscribeEv (channel : String)
  /-- The `errorHandler` caught an exception from a user callback. -/
  | handlerErrorEv (e : JsError)
deriving DecidableEq, Repr

/-- JavaScript `Set.add` on an insertion-ordered set. -/
def setAdd (l : List Nat) (a : Nat) : List Nat :=
  if a ∈ l then l else l ++ [a]

/-- Call waiter `cb`'s `onError` wrapper (not inside `safeCall`): a no-op
if its `hadCallback` flag is set, else set the flag and run the underlying
user `onError`. -/
def fireErrPlain {T : Type} (s : MuxState T) (cb : Nat) (tmo : Bool)
    (err : Option JsError) : MuxState T × List (MuxEv T) :=
  if s.fired cb then (s, [.wrapperCall cb tmo err])
  else
    ({ s with fired := fun c => if c = cb then true else s.fired c },
     [.wrapperCall cb tmo err, .onErrorCall cb tmo err])

/-- Call waiter `cb`'s `onError` wrapper inside `safeCall`: as
`fireErrPlain`, but an exception thrown by the user `onError` is routed to
the `errorHandler` (per the behaviour oracle). -/
def fireErrSafe {T : Type} (behav : Nat → Option JsError) (s : MuxState T)
    (cb : Nat) (tmo : Bool) (err : Option JsError) :
    MuxState T × List (MuxEv T) :=
  if s.fired cb then (s, [.wrapperCall cb tmo err])
  else
    ({ s with fired := fun c => if c = cb then true else s.fired c },
     [.wrapperCall cb tmo err, .onErrorCall cb tmo err] ++
       (match behav cb with
        | some e => [.handlerErrorEv e]
        | none => []))

/-- `errCallbacks.forEach((cb) => this.safeCall(() => cb(false, err)))`. -/
def fireErrList {T : Type} (behav : Nat → Option JsError) (s : MuxState T)
    (cbs : List Nat) (tmo : Bool) (err : Option JsError) :
    MuxState T × List (MuxEv T) :=
  match cbs with
  | [] => (s, [])
  | cb :: rest =>
    let r1 := fireErrSafe behav s cb tmo err
    let r2 := fireErrList behav r1.1 rest tmo err
    (r2.1, r1.2 ++ r2.2)

/-- `callbacks.forEach((cb) => this.safeCall(() => cb(data)))`. -/
def invokeSuccessList {T : Type} (behav : Nat → Option JsError)
    (cbs : List Nat) (data : T) : List (MuxEv T) :=
  cbs.flatMap (fun cb =>
    .invokeSuccess cb data ::
      (match behav cb with
       | some e => [.handlerErrorEv e]
       | none => []))

/-- The `'message'` handler installed by the `RedisUtilService` constructor:
ignore unknown channels; otherwise snapshot the entry, delete
`subInfo[channel]`, decode, and fan out to the error or success listeners,
clear the timers and unsubscribe. -/
def onMessageModel {T : Type} (behav : Nat → Option JsError)
    (s : MuxState T) (channel message : String) :
    MuxState T × List (MuxEv T) :=
  match s.subInfo channel with
  | none => (s, [])
  | some info =>
    let s1 : MuxState T :=
      { s with subInfo := fun c => if c = channel then none else s.subInfo c }
    match info.decode message with
    | .error err =>
      let r := fireErrList behav s1 info.errCallbacks false (some err)
      (r.1, .deleteEntry channel :: r.2 ++
        info.timeouts.map .clearTimeoutEv ++ [.unsubscribeEv channel])
    | .ok data =>
      (s1, .deleteEntry channel :: invokeSuccessList behav info.callbacks data ++
        info.timeouts.map .clearTimeoutEv ++ [.unsubscribeEv channel])

/-- `subscribeOnce(channel, { timeoutMs, decode, onSuccess, onError })`:
join the existing entry (keeping its `decode`), or create a fresh entry and
subscribe upstream; in both cases push the armed timer (`timerId`).
`wrapCb` is the identifier of this waiter's fresh `onError` wrapper. -/
def subscribeOnceModel {T : Type} (s : MuxState T) (channel : String)
    (timerId : Nat) (decode : String → Except JsError T)
    (onSuccess wrapCb : Nat) : MuxState T × List (MuxEv T) :=
  match s.subInfo channel with
  | some info =>
    let info' : SubEntry T :=
      { info with
        callbacks := setAdd info.callbacks onSuccess
        errCallbacks := setAdd info.errCallbacks wrapCb
        timeouts := info.timeouts ++ [timerId] }
    ({ s with subInfo := fun c => if c = channel then some info' else s.subInfo c },
     [])
  | none =>
    let info' : SubEntry T :=
      { callbacks := [onSuccess], errCallbacks := [wrapCb]
        timeouts := [timerId], decode := decode }
    ({ s with subInfo := fun c => if c = channel then some info' else s.subInfo c },
     [.subscribeEv channel])

/-- `unsubscribeFromSubscribeOnce(channel, successCallback, errorCallback)`:
drop the waiter's callbacks from the entry; when no success listener is
left, delete the entry and unsubscribe upstream. -/
def unsubscribeFromSubscribeOnceModel {T : Type} (s : MuxState T)
    (channel : String) (onSuccess wrapCb : Nat) :
    MuxState T × List (MuxEv T) :=
  match s.subInfo channel with
  | none => (s, [])
  | some info =>
    let info' : SubEntry T :=
      { info with
        callbacks := info.callbacks.erase onSuccess
        errCallbacks := info.errCallbacks.erase wrapCb }
    if info'.callbacks.length = 0 then
      ({ s with subInfo := fun c => if c = channel then none else s.subInfo c },
       [.unsubscribeEv channel])
    else
      ({ s with subInfo := fun c => if c = channel then some info' else s.subInfo c },
       [])

/-- The operations that can hit a `RedisUtilService`, with the environment
choosing their interleaving and arguments. -/
inductive MuxOp (T : Type) where
  /-- An inbound message on `channel` with `payload`. -/
  | message (channel payload : String)
  /-- The timer armed for the waiter `(onSuccess, wrapCb)` fires:
  `unsubscribeFromSubscribeOnce` then `onError(true)`. -/
  | timerFire (channel : String) (onSuccess wrapCb : Nat)
  /-- A `subscribeOnce` call by a new waiter. -/
  | subOnce (channel : String) (timerId : Nat)
      (decode : String → Except JsError T) (onSuccess wrapCb : Nat)
  /-- The upstream `subscribe(channel)` promise of the waiter
  `(onSuccess, wrapCb)` rejects: `onError(false, err)` then
  `unsubscribeFromSubscribeOnce`. -/
  | subFail (channel : String) (onSuccess wrapCb : Nat) (err : JsError)

/-- One multiplexer operation as a state transformer emitting its events. -/
def muxStep {T : Type} (behav : Nat → Option JsError) (s : MuxState T) :
    MuxOp T → MuxState T × List (MuxEv T)
  | .message ch payload => onMessageModel behav s ch payload
  | .timerFire ch onSuccess wrapCb =>
    let r1 := unsubscribeFromSubscribeOnceModel s ch onSuccess wrapCb
    let r2 := fireErrPlain r1.1 wrapCb true none
    (r2.1, r1.2 ++ r2.2)
  | .subOnce ch timerId decode onSuccess wrapCb =>
    subscribeOnceModel s ch timerId decode onSuccess wrapCb
  | .subFail ch onSuccess wrapCb err =>
    let r1 := fireErrPlain s wrapCb false (some err)
    let r2 := unsubscribeFromSubscribeOnceModel r1.1 ch onSuccess wrapCb
    (r2.1, r1.2 ++ r2.2)

/-- Run a sequence of multiplexer operations, accumulating events. -/
def runMuxOps {T : Type} (behav : Nat → Option JsError) (s : MuxState T) :
    List (MuxOp T) → MuxState T × List (MuxEv T)
  | [] => (s, [])
  | op :: rest =>
    let r1 := muxStep behav s op
    let r2 := runMuxOps behav r1.1 rest
    (r2.1, r1.2 ++ r2.2)

/-- Number of events in `evs` that run waiter `cb`'s underlying user
`onError`. -/
def countOnError {T : Type} (cb : Nat) (evs : List (MuxEv T)) : Nat :=
  evs.countP (fun ev =>
    match ev with
    | .onErrorCall c _ _ => c = cb
    | _ => false)

/-! ## Interleavings of several local callers on one key

A labelled transition system for a fixed key of one `MemolockCache`
instance.  Each caller of `get` is in one of the phases below; a step is
one synchronous segment of `get` / `getLockOrWaitForLock` between awaited
operations, or a multiplexer callback (the waiter's `onSuccess` /
`onError`).  The shared state is the key's membership in `isLockedCache`.
The responses of the backing store (cache hit or miss, `SET NX` reply,
message vs timeout) are chosen by the environment, so every constructor
carrying such a choice is enabled nondeterministically. -/

/-- Where a local caller of `get` stands for the fixed key. -/
inductive Phase where
  /-- Awaiting `redisClient.get(key)` at the top of `get`. -/
  | awaitGet
  /-- Inside `isLocked`, awaiting the `SET NX` (the key was added to
  `isLockedCache` synchronously before this await). -/
  | awaitSetNx
  /-- Fetcher branch: awaiting the user-supplied `fetch()`. -/
  | fetching
  /-- Fetcher branch: awaiting the `pipeline().exec()`. -/
  | awaitPipeline
  /-- Waiter: registered through `subscribeOnce`, awaiting message or
  timeout. -/
  | waiting
  /-- The caller's promise has settled. -/
  | done
deriving DecidableEq, Repr

/-- The shared state for the fixed key: `locked` is `key ∈ isLockedCache`,
`callers` the phases of the local callers. -/
structure CState where
  locked : Bool
  callers : List Phase
deriving DecidableEq, Repr

/-- Step labels, to tell which source transition fired. -/
inductive Lbl where
  | spawn | hit | missLocked | missUnlocked | setNxOk | setNxFail
  | fetchOk | fetchErr | pipelineDone | waiterMsg | waiterErrReject
  | waiterErrRetry
deriving DecidableEq, Repr

/-- Labels of steps that execute a waiter's `onSuccess` / `onError`
callback (each starts with `isLockedCache.delete(key)`). -/
def Lbl.isWaiterExit : Lbl → Bool
  | .waiterMsg | .waiterErrReject | .waiterErrRetry => true
  | _ => false

/-- One atomic step of the system, annotated with its label. -/
inductive Step : Lbl → CState → CState → Prop where
  /-- A new caller invokes `get` and awaits the cache read. -/
  | spawn {l : Bool} {cs : List Phase} :
      Step .spawn ⟨l, cs⟩ ⟨l, .awaitGet :: cs⟩
  /-- The cache read returns a truthy value: decode and settle.
  `isLockedCache` is untouched. -/
  | hit {l : Bool} {cs : List Phase} (i : Nat)
      (hp : cs.get? i = some .awaitGet) :
      Step .hit ⟨l, cs⟩ ⟨l, cs.set i .done⟩
  /-- Cache miss while `key ∈ isLockedCache`: `isLocked` short-circuits to
  `true`; the caller becomes a waiter (`subscribeOnce` runs synchronously). -/
  | missLocked {cs : List Phase} (i : Nat)
      (hp : cs.get? i = some .awaitGet) :
      Step .missLocked ⟨true, cs⟩ ⟨true, cs.set i .waiting⟩
  /-- Cache miss while `key ∉ isLockedCache`: `isLocked` adds the key and
  the caller awaits the `SET NX`. -/
  | missUnlocked {cs : List Phase} (i : Nat)
      (hp : cs.get? i = some .awaitGet) :
      Step .missUnlocked ⟨false, cs⟩ ⟨true, cs.set i .awaitSetNx⟩
  /-- The `SET NX` replies `'OK'`: the caller is the fetcher and awaits
  `fetch()`. -/
  | setNxOk {l : Bool} {cs : List Phase} (i : Nat)
      (hp : cs.get? i = some .awaitSetNx) :
      Step .setNxOk ⟨l, cs⟩ ⟨l, cs.set i .fetching⟩
  /-- The `SET NX` does not reply `'OK'`: the caller becomes a waiter. -/
  | setNxFail {l : Bool} {cs : List Phase} (i : Nat)
      (hp : cs.get? i = some .awaitSetNx) :
      Step .setNxFail ⟨l, cs⟩ ⟨l, cs.set i .waiting⟩
  /-- `fetch()` resolves: the fetcher dispatches the pipeline and awaits
  it. -/
  | fetchOk {l : Bool} {cs : List Phase} (i : Nat)
      (hp : cs.get? i = some .fetching) :
      Step .fetchOk ⟨l, cs⟩ ⟨l, cs.set i .awaitPipeline⟩
  /-- `fetch()` rejects: best-effort del, `isLockedCache.delete(key)`,
  rethrow. -/
  | fetchErr {l : Bool} {cs : List Phase} (i : Nat)
      (hp : cs.get? i = some .fetching) :
      Step .fetchErr ⟨l, cs⟩ ⟨false, cs.set i .done⟩
  /-- The pipeline resolves: `isLockedCache.delete(key)`, settle. -/
  | pipelineDone {l : Bool} {cs : List Phase} (i : Nat)
      (hp : cs.get? i = some .awaitPipeline) :
      Step .pipelineDone ⟨l, cs⟩ ⟨false, cs.set i .done⟩
  /-- A message reaches the waiter: `onSuccess` deletes the key and
  settles. -/
  | waiterMsg {l : Bool} {cs : List Phase} (i : Nat)
      (hp : cs.get? i = some .waiting) :
      Step .waiterMsg ⟨l, cs⟩ ⟨false, cs.set i .done⟩
  /-- Timeout/error with attempts exhausted: `onError` deletes the key and
  rejects. -/
  | waiterErrReject {l : Bool} {cs : List Phase} (i : Nat)
      (hp : cs.get? i = some .waiting) :
      Step .waiterErrReject ⟨l, cs⟩ ⟨false, cs.set i .done⟩
  /-- Timeout/error with attempts left: `onError` deletes the key and
  re-enters `get`. -/
  | waiterErrRetry {l : Bool} {cs : List Phase} (i : Nat)
      (hp : cs.get? i = some .waiting) :
      Step .waiterErrRetry ⟨l, cs⟩ ⟨false, cs.set i .awaitGet⟩

/-- Reachability from a fresh instance (no callers, key unlocked). -/
inductive Reach : CState → Prop where
  | init : Reach ⟨false, []⟩
  | step {lbl : Lbl} {s s' : CState} : Reach s → Step lbl s s' → Reach s'

/-- Reachability along runs in which no waiter callback fires. -/
inductive ReachQuiet : CState → Prop where
  | init : ReachQuiet ⟨false, []⟩
  | step {lbl : Lbl} {s s' : CState} : ReachQuiet s → Step lbl s s' →
      Lbl.isWaiterExit lbl = false → ReachQuiet s'

/-- The phases of the mutual-exclusion section: from the `SET NX` attempt
through the fetcher branch. -/
def Phase.isExclusive : Phase → Bool
  | .awaitSetNx | .fetching | .awaitPipeline => true
  | _ => false

/-- Number of callers inside the mutual-exclusion section. -/
def exCount (cs : List Phase) : Nat := cs.countP Phase.isExclusive

/-- Number of callers currently executing the user-supplied `fetch`. -/
def fetchingCount (cs : List Phase) : Nat :=
  cs.countP (fun p => p = Phase.fetching)

/-- The shape every pipelined batch must have: it comes from a successful
fetch of some attempt, with the three (or two) commands of the source in
order. -/
def PipelineShape {T : Type} (ctx : JsCtx T) (envs : Nat → AttemptEnv T)
    (opt : MemolockOpt T) (key : String) (cmds : List RedisCmd) : Prop :=
  ∃ k v, (envs k).fetch = .ok v ∧
    ((cacheIfApplied opt v = true ∧
      cmds = [.setPx key (getEncodedData ctx.stringify v opt.encode)
                (getTtlMs v opt.ttlMs),
              .publish (key ++ "_done") (getEncodedData ctx.stringify v opt.encode),
              .del (key ++ ":lock")]) ∨
     (cacheIfApplied opt v = false ∧
      cmds = [.publish (key ++ "_done") (getEncodedData ctx.stringify v opt.encode),
              .del (key ++ ":lock")]))

/-- Potential of waiter `cb`: 1 while its `onError` wrapper has not yet
fired. -/
def errPot {T : Type} (s : MuxState T) (cb : Nat) : Nat :=
  if s.fired cb then 0 else 1

/-- Witness environment: the fetcher acquires the lock and its fetch
succeeds with the JSON number 7. -/
def envFetchOk : Nat → AttemptEnv JsValue := fun _ =>
  { cached := none, acquired := true, fetch := .ok (.json (.num 7)),
    delResult := none, waiter := .failure }

/-- Witness environment: the fetch resolves to `undefined`. -/
def envFetchUndef : Nat → AttemptEnv JsValue := fun _ =>
  { cached := none, acquired := true, fetch := .ok .undef,
    delResult := none, waiter := .failure }

/-- Witness environment: the caller always waits and the wait always
fails. -/
def envWaiterFail : Nat → AttemptEnv JsValue := fun _ =>
  { cached := none, acquired := false, fetch := .ok (.json .null),
    delResult := none, waiter := .failure }

/-- Environment for the C4 counterexample: the fetch rejects with
"fetch boom" and the best-effort del of the lock rejects with "del boom". -/
def c4Envs : Nat → AttemptEnv JsValue := fun _ =>
  { cached := none, acquired := true, fetch := .error ⟨"fetch boom"⟩,
    delResult := some ⟨"del boom"⟩, waiter := .failure }

/-- Options record for the C4 counterexample. -/
def c4Opt : MemolockOpt JsValue := { ttlMs := .const 1000 }

/-- Witness options: ttl 5000 ms, everything else default. -/
def optBase : MemolockOpt JsValue := { ttlMs := .const 5000 }

/-- Witness options: `maxAttempts` 1. -/
def optOneAttempt : MemolockOpt JsValue :=
  { ttlMs := .const 5000, maxAttempts := some 1 }

/-- Witness options: a custom decode that always throws. -/
def optDecodeThrows : MemolockOpt JsValue :=
  { ttlMs := .const 5000, decode := some fun _ => .error ⟨"decode boom"⟩ }

/-- Witness `subInfo` entry on channel `"K_done"`. -/
def muxEntryW : SubEntry Nat :=
  { callbacks := [1], errCallbacks := [2], timeouts := [5],
    decode := fun p => .ok p.length }

/-- Witness multiplexer state: `"K_done"` has the entry `muxEntryW`. -/
def muxStateW : MuxState Nat :=
  { subInfo := fun c => if c = "K_done" then some muxEntryW else none,
    fired := fun _ => false }


/-! ## Helper lemmas -/

lemma countOnError_append {T : Type} (cb : Nat) (a b : List (MuxEv T)) :
    countOnError cb (a ++ b) = countOnError cb a + countOnError cb b := by
  simp [countOnError, List.countP_append]

lemma fireErrPlain_pot {T : Type} (s : MuxState T) (c cb : Nat) (tmo : Bool)
    (err : Option JsError) :
    countOnError cb (fireErrPlain s c tmo err).2 +
      errPot (fireErrPlain s c tmo err).1 cb ≤ errPot s cb := by
  unfold fireErrPlain errPot countOnError
  by_cases h : s.fired c
  · simp [h, List.countP_cons, List.countP_nil]
  · by_cases hc : c = cb
    · subst hc
      simp [h, List.countP_nil, List.countP_cons]
    · simp [h, hc, List.countP_nil, List.countP_cons, Ne.symm hc]

lemma fireErrSafe_pot {T : Type} (behav : Nat → Option JsError)
    (s : MuxState T) (c cb : Nat) (tmo : Bool) (err : Option JsError) :
    countOnError cb (fireErrSafe behav s c tmo err).2 +
      errPot (fireErrSafe behav s c tmo err).1 cb ≤ errPot s cb := by
  unfold fireErrSafe errPot countOnError
  by_cases h : s.fired c
  · simp [h, List.countP_cons, List.countP_nil]
  · by_cases hc : c = cb
    · subst hc
      cases behav c <;> simp [h, List.countP_nil, List.countP_cons]
    · cases behav c <;>
        simp [h, hc, List.countP_nil, List.countP_cons, Ne.symm hc]

lemma fireErrList_pot {T : Type} (behav : Nat → Option JsError)
    (cbs : List Nat) (s : MuxState T) (cb : Nat) (tmo : Bool)
    (err : Option JsError) :
    countOnError cb (fireErrList behav s cbs tmo err).2 +
      errPot (fireErrList behav s cbs tmo err).1 cb ≤ errPot s cb := by
  induction cbs generalizing s with
  | nil => simp [fireErrList, countOnError, List.countP_nil]
  | cons c rest ih =>
    have h1 := fireErrSafe_pot behav s c cb tmo err
    have h2 := ih (fireErrSafe behav s c tmo err).1
    simp only [fireErrList, countOnError_append]
    omega

lemma countOnError_invokeSuccessList {T : Type} (behav : Nat → Option JsError)
    (cbs : List Nat) (data : T) (cb : Nat) :
    countOnError cb (invokeSuccessList behav cbs data) = 0 := by
  induction cbs with
  | nil => simp [invokeSuccessList, countOnError, List.countP_nil]
  | cons c rest ih =>
    have hsplit : invokeSuccessList behav (c :: rest) data =
        (MuxEv.invokeSuccess c data ::
          (match behav c with
           | some e => [MuxEv.handlerErrorEv e]
           | none => [])) ++ invokeSuccessList behav rest data := by
      simp [invokeSuccessList]
    rw [hsplit, countOnError_append, ih]
    cases behav c <;>
      simp [countOnError, List.countP_cons, List.countP_nil]

lemma countOnError_clearTimeouts {T : Type} (ts : List Nat) (cb : Nat) :
    countOnError cb (ts.map (MuxEv.clearTimeoutEv (T := T))) = 0 := by
  induction ts with
  | nil => simp [countOnError, List.countP_nil]
  | cons t rest ih =>
    simp only [List.map_cons, countOnError, List.countP_cons] at ih ⊢
    simp [ih]

lemma unsubscribeFromSubscribeOnceModel_pot {T : Type} (s : MuxState T)
    (ch : String) (onSuccess wrapCb cb : Nat) :
    countOnError cb (unsubscribeFromSubscribeOnceModel s ch onSuccess wrapCb).2 +
      errPot (unsubscribeFromSubscribeOnceModel s ch onSuccess wrapCb).1 cb ≤
      errPot s cb := by
  unfold unsubscribeFromSubscribeOnceModel errPot countOnError
  cases s.subInfo ch with
  | none => simp [List.countP_nil]
  | some info =>
    by_cases h : ((info.callbacks.erase onSuccess).length = 0) <;>
      simp [h, List.countP_nil, List.countP_cons]

lemma subscribeOnceModel_pot {T : Type} (s : MuxState T) (ch : String)
    (timerId : Nat) (decode : String → Except JsError T)
    (onSuccess wrapCb cb : Nat) :
    countOnError cb (subscribeOnceModel s ch timerId decode onSuccess wrapCb).2 +
      errPot (subscribeOnceModel s ch timerId decode onSuccess wrapCb).1 cb ≤
      errPot s cb := by
  unfold subscribeOnceModel errPot countOnError
  cases s.subInfo ch with
  | none => simp [List.countP_nil, List.countP_cons]
  | some info => simp [List.countP_nil]

lemma onMessageModel_pot {T : Type} (behav : Nat → Option JsError)
    (s : MuxState T) (ch payload : String) (cb : Nat) :
    countOnError cb (onMessageModel behav s ch payload).2 +
      errPot (onMessageModel behav s ch payload).1 cb ≤ errPot s cb := by
  unfold onMessageModel
  cases hs : s.subInfo ch with
  | none => simp [countOnError, List.countP_nil]
  | some info =>
    cases hd : info.decode payload with
    | error err =>
      simp only [hd]
      have h1 := fireErrList_pot behav info.errCallbacks
        { s with subInfo := fun c => if c = ch then none else s.subInfo c }
        cb false (some err)
      have h2 := countOnError_clearTimeouts (T := T) info.timeouts cb
      simp only [countOnError, List.countP_cons, List.countP_append,
        List.countP_nil] at h1 h2 ⊢
      simp only [errPot] at h1 ⊢
      simp only [Bool.false_eq_true, if_false]
      omega
    | ok data =>
      simp only [hd]
      have h1 := countOnError_invokeSuccessList behav info.callbacks data cb
      have h2 := countOnError_clearTimeouts (T := T) info.timeouts cb
      simp only [countOnError, List.countP_cons, List.countP_append,
        List.countP_nil] at h1 h2 ⊢
      simp only [errPot, Bool.false_eq_true, if_false]
      omega

lemma muxStep_pot {T : Type} (behav : Nat → Option JsError) (s : MuxState T)
    (op : MuxOp T) (cb : Nat) :
    countOnError cb (muxStep behav s op).2 +
      errPot (muxStep behav s op).1 cb ≤ errPot s cb := by
  cases op with
  | message ch payload => exact onMessageModel_pot behav s ch payload cb
  | timerFire ch onSuccess wrapCb =>
    have h1 := unsubscribeFromSubscribeOnceModel_pot s ch onSuccess wrapCb cb
    have h2 := fireErrPlain_pot
      (unsubscribeFromSubscribeOnceModel s ch onSuccess wrapCb).1 wrapCb cb
      true none
    simp only [muxStep, countOnError_append]
    omega
  | subOnce ch timerId decode onSuccess wrapCb =>
    exact subscribeOnceModel_pot s ch timerId decode onSuccess wrapCb cb
  | subFail ch onSuccess wrapCb err =>
    have h1 := fireErrPlain_pot s wrapCb cb false (some err)
    have h2 := unsubscribeFromSubscribeOnceModel_pot
      (fireErrPlain s wrapCb false (some err)).1 ch onSuccess wrapCb cb
    simp only [muxStep, countOnError_append]
    omega

lemma runMuxOps_pot {T : Type} (behav : Nat → Option JsError)
    (ops : List (MuxOp T)) (s : MuxState T) (cb : Nat) :
    countOnError cb (runMuxOps behav s ops).2 +
      errPot (runMuxOps behav s ops).1 cb ≤ errPot s cb := by
  induction ops generalizing s with
  | nil => simp [runMuxOps, countOnError, List.countP_nil]
  | cons op rest ih =>
    have h1 := muxStep_pot behav s op cb
    have h2 := ih (muxStep behav s op).1
    simp only [runMuxOps, countOnError_append]
    omega

/-- Properties of a run of `getLockOrWaitForLock` (resp. `get`), proved by
induction on the number of remaining attempts: every pipelined batch has
the `PipelineShape`, the index of the last attempt stays below
`maxAttempts`, and the key is out of `isLockedCache` once the run settles
(for `get`: provided it was out initially, since a cache hit does not touch
it). -/
lemma run_props_aux {T : Type} (ctx : JsCtx T) (envs : Nat → AttemptEnv T)
    (opt : MemolockOpt T) (key : String) :
    ∀ (n attempts : Nat) (locked : Bool),
      maxAttemptsOf opt - attempts ≤ n →
      (((∀ cmds, Ev.pipeline cmds ∈
            (getModel ctx envs opt key locked attempts).trace →
          PipelineShape ctx envs opt key cmds) ∧
        (attempts < maxAttemptsOf opt →
          (getModel ctx envs opt key locked attempts).lastAttempt <
            maxAttemptsOf opt) ∧
        (locked = false →
          (getModel ctx envs opt key locked attempts).lockedAfter = false)) ∧
       ((∀ cmds, Ev.pipeline cmds ∈
            (getLockOrWaitForLockModel ctx envs opt key locked attempts).trace →
          PipelineShape ctx envs opt key cmds) ∧
        (attempts < maxAttemptsOf opt →
          (getLockOrWaitForLockModel ctx envs opt key locked attempts).lastAttempt <
            maxAttemptsOf opt) ∧
        (getLockOrWaitForLockModel ctx envs opt key locked attempts).lockedAfter =
          false)) := by
  intro n
  induction n using Nat.strong_induction_on with
  | _ n ih =>
    intro attempts locked hn
    have G : (∀ cmds, Ev.pipeline cmds ∈
          (getLockOrWaitForLockModel ctx envs opt key locked attempts).trace →
        PipelineShape ctx envs opt key cmds) ∧
        (attempts < maxAttemptsOf opt →
          (getLockOrWaitForLockModel ctx envs opt key locked attempts).lastAttempt <
            maxAttemptsOf opt) ∧
        (getLockOrWaitForLockModel ctx envs opt key locked attempts).lockedAfter =
          false := by
      have retryCase : ∀ h : attempts < maxAttemptsOf opt - 1,
          ((∀ cmds, Ev.pipeline cmds ∈
              (getModel ctx envs opt key false (attempts + 1)).trace →
            PipelineShape ctx envs opt key cmds) ∧
          (attempts + 1 < maxAttemptsOf opt →
            (getModel ctx envs opt key false (attempts + 1)).lastAttempt <
              maxAttemptsOf opt) ∧
          (false = false →
            (getModel ctx envs opt key false (attempts + 1)).lockedAfter =
              false)) := by
        intro hr
        have hm : maxAttemptsOf opt - (attempts + 1) < n := by omega
        exact (ih _ hm (attempts + 1) false (le_refl _)).1
      cases locked with
      | true =>
        rcases hw : (envs attempts).waiter with payload | _
        · rcases hd : doDecode ctx opt payload with err | data
          · by_cases hr : attempts < maxAttemptsOf opt - 1
            · have IH := retryCase hr
              refine ⟨fun cmds h => ?_, fun ha => ?_, ?_⟩
              · rw [getLockOrWaitForLockModel] at h
                simp [hw, hd, hr] at h
                exact IH.1 cmds h
              · rw [getLockOrWaitForLockModel]
                simp [hw, hd, hr]
                exact IH.2.1 (by omega)
              · rw [getLockOrWaitForLockModel]
                simp [hw, hd, hr]
                exact IH.2.2 rfl
            · refine ⟨fun cmds h => ?_, fun ha => ?_, ?_⟩
              · rw [getLockOrWaitForLockModel] at h
                simp [hw, hd, hr] at h
              · rw [getLockOrWaitForLockModel]
                simp [hw, hd, hr]
                omega
              · rw [getLockOrWaitForLockModel]
                simp [hw, hd, hr]
          · refine ⟨fun cmds h => ?_, fun ha => ?_, ?_⟩
            · rw [getLockOrWaitForLockModel] at h
              simp [hw, hd] at h
            · rw [getLockOrWaitForLockModel]
              simp [hw, hd]
              omega
            · rw [getLockOrWaitForLockModel]
              simp [hw, hd]
        · by_cases hr : attempts < maxAttemptsOf opt - 1
          · have IH := retryCase hr
            refine ⟨fun cmds h => ?_, fun ha => ?_, ?_⟩
            · rw [getLockOrWaitForLockModel] at h
              simp [hw, hr] at h
              exact IH.1 cmds h
            · rw [getLockOrWaitForLockModel]
              simp [hw, hr]
              exact IH.2.1 (by omega)
            · rw [getLockOrWaitForLockModel]
              simp [hw, hr]
              exact IH.2.2 rfl
          · refine ⟨fun cmds h => ?_, fun ha => ?_, ?_⟩
            · rw [getLockOrWaitForLockModel] at h
              simp [hw, hr] at h
            · rw [getLockOrWaitForLockModel]
              simp [hw, hr]
              omega
            · rw [getLockOrWaitForLockModel]
              simp [hw, hr]
      | false =>
        cases ha : (envs attempts).acquired with
        | false =>
          rcases hw : (envs attempts).waiter with payload | _
          · rcases hd : doDecode ctx opt payload with err | data
            · by_cases hr : attempts < maxAttemptsOf opt - 1
              · have IH := retryCase hr
                refine ⟨fun cmds h => ?_, fun ha2 => ?_, ?_⟩
                · rw [getLockOrWaitForLockModel] at h
                  simp [ha, hw, hd, hr] at h
                  exact IH.1 cmds h
                · rw [getLockOrWaitForLockModel]
                  simp [ha, hw, hd, hr]
                  exact IH.2.1 (by omega)
                · rw [getLockOrWaitForLockModel]
                  simp [ha, hw, hd, hr]
                  exact IH.2.2 rfl
              · refine ⟨fun cmds h => ?_, fun ha2 => ?_, ?_⟩
                · rw [getLockOrWaitForLockModel] at h
                  simp [ha, hw, hd, hr] at h
                · rw [getLockOrWaitForLockModel]
                  simp [ha, hw, hd, hr]
                  omega
                · rw [getLockOrWaitForLockModel]
                  simp [ha, hw, hd, hr]
            · refine ⟨fun cmds h => ?_, fun ha2 => ?_, ?_⟩
              · rw [getLockOrWaitForLockModel] at h
                simp [ha, hw, hd] at h
              · rw [getLockOrWaitForLockModel]
                simp [ha, hw, hd]
                omega
              · rw [getLockOrWaitForLockModel]
                simp [ha, hw, hd]
          · by_cases hr : attempts < maxAttemptsOf opt - 1
            · have IH := retryCase hr
              refine ⟨fun cmds h => ?_, fun ha2 => ?_, ?_⟩
              · rw [getLockOrWaitForLockModel] at h
                simp [ha, hw, hr] at h
                exact IH.1 cmds h
              · rw [getLockOrWaitForLockModel]
                simp [ha, hw, hr]
                exact IH.2.1 (by omega)
              · rw [getLockOrWaitForLockModel]
                simp [ha, hw, hr]
                exact IH.2.2 rfl
            · refine ⟨fun cmds h => ?_, fun ha2 => ?_, ?_⟩
              · rw [getLockOrWaitForLockModel] at h
                simp [ha, hw, hr] at h
              · rw [getLockOrWaitForLockModel]
                simp [ha, hw, hr]
                omega
              · rw [getLockOrWaitForLockModel]
                simp [ha, hw, hr]
        | true =>
          rcases hf : (envs attempts).fetch with err | v
          · refine ⟨fun cmds h => ?_, fun ha2 => ?_, ?_⟩
            · rw [getLockOrWaitForLockModel] at h
              rcases hdel : (envs attempts).delResult with _ | e2 <;>
                cases hh : ctx.hasErrorHandler <;>
                simp [ha, hf, hdel, hh] at h
            · rw [getLockOrWaitForLockModel]
              simp [ha, hf]
              omega
            · rw [getLockOrWaitForLockModel]
              simp [ha, hf]
          · by_cases hc : cacheIfApplied opt v = true
            · refine ⟨fun cmds h => ?_, fun ha2 => ?_, ?_⟩
              · rw [getLockOrWaitForLockModel] at h
                simp [ha, hf, hc] at h
                exact ⟨attempts, v, hf, Or.inl ⟨hc, h⟩⟩
              · rw [getLockOrWaitForLockModel]
                simp [ha, hf, hc]
                omega
              · rw [getLockOrWaitForLockModel]
                simp [ha, hf, hc]
            · refine ⟨fun cmds h => ?_, fun ha2 => ?_, ?_⟩
              · rw [getLockOrWaitForLockModel] at h
                simp [ha, hf, hc] at h
                exact ⟨attempts, v, hf,
                  Or.inr ⟨Bool.not_eq_true _ ▸ (by simpa using hc), h⟩⟩
              · rw [getLockOrWaitForLockModel]
                simp [ha, hf, hc]
                omega
              · rw [getLockOrWaitForLockModel]
                simp [ha, hf, hc]
    refine ⟨⟨?_, ?_, ?_⟩, G⟩
    · intro cmds hmem
      rw [getModel] at hmem
      by_cases hF : opt.forceRefresh = true
      · simp [hF, truthy] at hmem
        exact G.1 cmds hmem
      · by_cases hT : truthy (envs attempts).cached = true
        · simp [hF, hT] at hmem
        · simp [hF, hT] at hmem
          exact G.1 cmds hmem
    · intro ha
      rw [getModel]
      by_cases hF : opt.forceRefresh = true
      · simp [hF, truthy]
        exact G.2.1 ha
      · by_cases hT : truthy (envs attempts).cached = true
        · simp [hF, hT]
          omega
        · simp [hF, hT]
          exact G.2.1 ha
    · intro hl
      rw [getModel]
      by_cases hF : opt.forceRefresh = true
      · simp [hF, truthy]
        exact G.2.2
      · by_cases hT : truthy (envs attempts).cached = true
        · simp [hF, hT, hl]
        · simp [hF, hT]
          exact G.2.2



/-! ## Claims about the concurrency model (C3, C9) -/

lemma countP_set (f : Phase → Bool) :
    ∀ (cs : List Phase) (i : Nat) (p p' : Phase),
      cs.get? i = some p →
      (cs.set i p').countP f + (if f p then 1 else 0) =
        cs.countP f + (if f p' then 1 else 0) := by
  intro cs
  induction cs with
  | nil => intro i p p' h; simp at h
  | cons a rest ih =>
    intro i p p' h
    cases i with
    | zero =>
      simp only [List.get?_cons_zero, Option.some.injEq] at h
      subst h
      simp only [List.set_cons_zero, List.countP_cons]
      omega
    | succ j =>
      simp only [List.get?_cons_succ] at h
      have := ih j p p' h
      simp only [List.set_cons_succ, List.countP_cons]
      omega

/-- C3 (amended): along runs in which no waiter callback fires, at most one
local caller is in the SET NX / fetcher section for the key, and while one
is there the key is in `isLockedCache`. -/
theorem C3_mutual_exclusion_quiet (s : CState) (h : ReachQuiet s) :
    exCount s.callers ≤ 1 ∧ (1 ≤ exCount s.callers → s.locked = true) := by
  induction h with
  | init => simp [exCount]
  | step hr hstep hq ih =>
    cases hstep with
    | spawn =>
      simp only [exCount, List.countP_cons] at *
      simpa [Phase.isExclusive] using ih
    | hit i hp =>
      have hc := countP_set Phase.isExclusive _ i _ Phase.done hp
      simp only [exCount] at *
      simp [Phase.isExclusive] at hc
      constructor
      · omega
      · intro h1
        exact ih.2 (by omega)
    | missLocked i hp =>
      have hc := countP_set Phase.isExclusive _ i _ Phase.waiting hp
      simp only [exCount] at *
      simp [Phase.isExclusive] at hc
      exact ⟨by omega, fun _ => by trivial⟩
    | missUnlocked i hp =>
      have hc := countP_set Phase.isExclusive _ i _ Phase.awaitSetNx hp
      simp only [exCount] at *
      simp [Phase.isExclusive] at hc
      have h3 : ¬ _ := fun hx => absurd (ih.2 hx) (by simp)
      have h4 := Nat.eq_zero_of_not_pos h3
      exact ⟨by omega, fun _ => by trivial⟩
    | setNxOk i hp =>
      have hc := countP_set Phase.isExclusive _ i _ Phase.fetching hp
      simp only [exCount] at *
      simp [Phase.isExclusive] at hc
      exact ⟨by omega, fun h1 => ih.2 (by omega)⟩
    | setNxFail i hp =>
      have hc := countP_set Phase.isExclusive _ i _ Phase.waiting hp
      simp only [exCount] at *
      simp [Phase.isExclusive] at hc
      exact ⟨by omega, fun h1 => ih.2 (by omega)⟩
    | fetchOk i hp =>
      have hc := countP_set Phase.isExclusive _ i _ Phase.awaitPipeline hp
      simp only [exCount] at *
      simp [Phase.isExclusive] at hc
      exact ⟨by omega, fun h1 => ih.2 (by omega)⟩
    | fetchErr i hp =>
      have hc := countP_set Phase.isExclusive _ i _ Phase.done hp
      simp only [exCount] at *
      simp [Phase.isExclusive] at hc
      exact ⟨by omega, fun h1 => absurd h1 (by omega)⟩
    | pipelineDone i hp =>
      have hc := countP_set Phase.isExclusive _ i _ Phase.done hp
      simp only [exCount] at *
      simp [Phase.isExclusive] at hc
      exact ⟨by omega, fun h1 => absurd h1 (by omega)⟩
    | waiterMsg i hp => simp [Lbl.isWaiterExit] at hq
    | waiterErrReject i hp => simp [Lbl.isWaiterExit] at hq
    | waiterErrRetry i hp => simp [Lbl.isWaiterExit] at hq

/-- C3 (counterexample): a state with two local callers simultaneously in
the fetcher branch for the same key is reachable: a waiter timeout during a
slow fetch deletes the key from `isLockedCache`, after which the retry can
win a fresh `SET NX` (the remote lock having expired). -/
theorem C3_two_fetchers_reachable :
    Reach ⟨true, [Phase.fetching, Phase.fetching]⟩ ∧
    fetchingCount [Phase.fetching, Phase.fetching] = 2 := by
  constructor
  · have h1 : Reach ⟨false, [Phase.awaitGet]⟩ :=
      Reach.step Reach.init Step.spawn
    have h2 : Reach ⟨true, [Phase.awaitSetNx]⟩ :=
      Reach.step h1 (Step.missUnlocked 0 rfl)
    have h3 : Reach ⟨true, [Phase.fetching]⟩ :=
      Reach.step h2 (Step.setNxOk 0 rfl)
    have h4 : Reach ⟨true, [Phase.awaitGet, Phase.fetching]⟩ :=
      Reach.step h3 Step.spawn
    have h5 : Reach ⟨true, [Phase.waiting, Phase.fetching]⟩ :=
      Reach.step h4 (Step.missLocked 0 rfl)
    have h6 : Reach ⟨false, [Phase.awaitGet, Phase.fetching]⟩ :=
      Reach.step h5 (Step.waiterErrRetry 0 rfl)
    have h7 : Reach ⟨true, [Phase.awaitSetNx, Phase.fetching]⟩ :=
      Reach.step h6 (Step.missUnlocked 0 rfl)
    exact Reach.step h7 (Step.setNxOk 0 rfl)
  · decide

/-- C9 (counterexample): a `get` can settle through the cache-hit branch
while the key stays in `isLockedCache` on behalf of a concurrent waiter. -/
theorem C9_hit_settles_while_locked :
    Reach ⟨true, [Phase.awaitGet, Phase.waiting]⟩ ∧
    Step .hit ⟨true, [Phase.awaitGet, Phase.waiting]⟩
      ⟨true, [Phase.done, Phase.waiting]⟩ ∧
    (⟨true, [Phase.done, Phase.waiting]⟩ : CState).locked = true := by
  refine ⟨?_, ?_, rfl⟩
  · have h1 : Reach ⟨false, [Phase.awaitGet]⟩ :=
      Reach.step Reach.init Step.spawn
    have h2 : Reach ⟨true, [Phase.awaitSetNx]⟩ :=
      Reach.step h1 (Step.missUnlocked 0 rfl)
    have h3 : Reach ⟨true, [Phase.waiting]⟩ :=
      Reach.step h2 (Step.setNxFail 0 rfl)
    exact Reach.step h3 Step.spawn
  · exact Step.hit 0 rfl

theorem C3_mutual_exclusion_quiet_witness :
    ReachQuiet ⟨true, [Phase.fetching]⟩ ∧
    exCount [Phase.fetching] ≤ 1 := by
  have h1 : ReachQuiet ⟨false, [Phase.awaitGet]⟩ :=
    ReachQuiet.step ReachQuiet.init Step.spawn rfl
  have h2 : ReachQuiet ⟨true, [Phase.awaitSetNx]⟩ :=
    ReachQuiet.step h1 (Step.missUnlocked 0 rfl) rfl
  have h3 : ReachQuiet ⟨true, [Phase.fetching]⟩ :=
    ReachQuiet.step h2 (Step.setNxOk 0 rfl) rfl
  exact ⟨h3, (C3_mutual_exclusion_quiet _ h3).1⟩



/-! ## Claims about the multiplexer (C5, C6, C8, C10) and the settled lock bit (C9) -/

lemma onMessageModel_entry_error {T : Type} (behav : Nat → Option JsError)
    (s : MuxState T) (channel message : String) (info : SubEntry T)
    (err : JsError) (hs : s.subInfo channel = some info)
    (hd : info.decode message = .error err) :
    onMessageModel behav s channel message =
      ((fireErrList behav
          { s with subInfo := fun c => if c = channel then none else s.subInfo c }
          info.errCallbacks false (some err)).1,
       MuxEv.deleteEntry channel ::
         (fireErrList behav
            { s with subInfo := fun c => if c = channel then none else s.subInfo c }
            info.errCallbacks false (some err)).2 ++
         info.timeouts.map MuxEv.clearTimeoutEv ++ [MuxEv.unsubscribeEv channel]) := by
  unfold onMessageModel
  rw [hs]
  simp only [hd]

lemma onMessageModel_entry_ok {T : Type} (behav : Nat → Option JsError)
    (s : MuxState T) (channel message : String) (info : SubEntry T)
    (data : T) (hs : s.subInfo channel = some info)
    (hd : info.decode message = .ok data) :
    onMessageModel behav s channel message =
      ({ s with subInfo := fun c => if c = channel then none else s.subInfo c },
       MuxEv.deleteEntry channel ::
         invokeSuccessList behav info.callbacks data ++
         info.timeouts.map MuxEv.clearTimeoutEv ++ [MuxEv.unsubscribeEv channel]) := by
  unfold onMessageModel
  rw [hs]
  simp only [hd]

lemma fireErrSafe_subInfo {T : Type} (behav : Nat → Option JsError)
    (s : MuxState T) (cb : Nat) (tmo : Bool) (err : Option JsError) :
    (fireErrSafe behav s cb tmo err).1.subInfo = s.subInfo := by
  unfold fireErrSafe
  split <;> rfl

lemma fireErrList_subInfo {T : Type} (behav : Nat → Option JsError)
    (cbs : List Nat) (s : MuxState T) (tmo : Bool) (err : Option JsError) :
    (fireErrList behav s cbs tmo err).1.subInfo = s.subInfo := by
  induction cbs generalizing s with
  | nil => rfl
  | cons c rest ih =>
    simp only [fireErrList]
    rw [ih, fireErrSafe_subInfo]

lemma wrapperCall_mem_fireErrList {T : Type} (behav : Nat → Option JsError)
    (cbs : List Nat) (s : MuxState T) (tmo : Bool) (err : Option JsError) :
    ∀ cb ∈ cbs, MuxEv.wrapperCall cb tmo err ∈ (fireErrList behav s cbs tmo err).2 := by
  induction cbs generalizing s with
  | nil => simp
  | cons c rest ih =>
    intro cb hcb
    simp only [fireErrList, List.mem_append]
    rcases List.mem_cons.mp hcb with rfl | h
    · left
      unfold fireErrSafe
      split <;> simp
    · right
      exact ih _ cb h

lemma invokeSuccess_mem_invokeSuccessList {T : Type}
    (behav : Nat → Option JsError) (cbs : List Nat) (data : T) :
    ∀ cb ∈ cbs, MuxEv.invokeSuccess cb data ∈ invokeSuccessList behav cbs data := by
  intro cb h
  simp only [invokeSuccessList, List.mem_flatMap]
  exact ⟨cb, h, List.mem_cons_self _ _⟩

lemma invokeSuccess_not_mem_fireErrList {T : Type}
    (behav : Nat → Option JsError) (cbs : List Nat) (s : MuxState T)
    (tmo : Bool) (err : Option JsError) (cb : Nat) (d : T) :
    MuxEv.invokeSuccess cb d ∉ (fireErrList behav s cbs tmo err).2 := by
  induction cbs generalizing s with
  | nil => simp [fireErrList]
  | cons c rest ih =>
    simp only [fireErrList, List.mem_append]
    intro h
    rcases h with h | h
    · unfold fireErrSafe at h
      split at h <;> rcases hb : behav c <;> simp [hb] at h
    · exact ih _ h

/-- C5: for every inbound message on a channel with a `subInfo` entry, the
entry is deleted before any callback of the snapshot is invoked (the
deletion is the first event, and the state the callbacks run in has no
entry), the decoded value (resp. the decode error) is delivered to every
success (resp. error) listener of the snapshot, and a `subscribeOnce`
performed from inside one of those callbacks starts a fresh entry. -/
theorem C5_delete_before_callbacks {T : Type} (behav : Nat → Option JsError)
    (s : MuxState T) (channel message : String) (info : SubEntry T)
    (hs : s.subInfo channel = some info) :
    (onMessageModel behav s channel message).1.subInfo channel = none ∧
    (∃ rest, (onMessageModel behav s channel message).2 =
      MuxEv.deleteEntry channel :: rest) ∧
    (∀ data, info.decode message = .ok data → ∀ cb ∈ info.callbacks,
      MuxEv.invokeSuccess cb data ∈ (onMessageModel behav s channel message).2) ∧
    (∀ err, info.decode message = .error err → ∀ cb ∈ info.errCallbacks,
      MuxEv.wrapperCall cb false (some err) ∈
        (onMessageModel behav s channel message).2) ∧
    (∀ timerId decode2 onSuccess wrapCb,
      (subscribeOnceModel (onMessageModel behav s channel message).1 channel
          timerId decode2 onSuccess wrapCb).1.subInfo channel =
        some { callbacks := [onSuccess], errCallbacks := [wrapCb],
               timeouts := [timerId], decode := decode2 }) := by
  have hnone : (onMessageModel behav s channel message).1.subInfo channel = none := by
    rcases hd : info.decode message with err | data
    · rw [onMessageModel_entry_error behav s channel message info err hs hd]
      rw [fireErrList_subInfo]
      simp
    · rw [onMessageModel_entry_ok behav s channel message info data hs hd]
      simp
  refine ⟨hnone, ?_, ?_, ?_, ?_⟩
  · rcases hd : info.decode message with err | data
    · rw [onMessageModel_entry_error behav s channel message info err hs hd]
      exact ⟨_, rfl⟩
    · rw [onMessageModel_entry_ok behav s channel message info data hs hd]
      exact ⟨_, rfl⟩
  · intro data hd cb hcb
    rw [onMessageModel_entry_ok behav s channel message info data hs hd]
    simp only [List.cons_append, List.mem_cons, List.mem_append]
    exact Or.inr (Or.inl (Or.inl
      (invokeSuccess_mem_invokeSuccessList behav info.callbacks data cb hcb)))
  · intro err hd cb hcb
    rw [onMessageModel_entry_error behav s channel message info err hs hd]
    simp only [List.cons_append, List.mem_cons, List.mem_append]
    exact Or.inr (Or.inl (Or.inl
      (wrapperCall_mem_fireErrList behav info.errCallbacks _ false (some err) cb hcb)))
  · intro timerId decode2 onSuccess wrapCb
    unfold subscribeOnceModel
    rw [hnone]
    simp

/-- C6: whatever interleaving of messages, timer firings, `subscribeOnce`
calls and upstream subscribe failures hits the multiplexer, a given
waiter's underlying user `onError` runs at most once: its single-fire
wrapper flags the first invocation and turns later ones into no-ops. -/
theorem C6_onError_at_most_once {T : Type} (behav : Nat → Option JsError)
    (s : MuxState T) (ops : List (MuxOp T)) (cb : Nat) :
    countOnError cb (runMuxOps behav s ops).2 ≤ 1 := by
  have h := runMuxOps_pot behav ops s cb
  unfold errPot at h
  by_cases h1 : s.fired cb = true <;>
    by_cases h2 : (runMuxOps behav s ops).1.fired cb = true <;>
    simp [h1, h2] at h <;> omega

/-- C10: a `subscribeOnce` joining an existing `subInfo` entry keeps the
entry's original `decode` (the one supplied by the `subscribeOnce` that
created the entry) and discards the newly supplied one; the message that
eventually arrives is decoded with the original `decode` for all waiters
of the epoch, including the joiner. -/
theorem C10_first_decode_wins {T : Type} (s : MuxState T) (channel : String)
    (timerId : Nat) (dec : String → Except JsError T) (onSuccess wrapCb : Nat)
    (info : SubEntry T) (hs : s.subInfo channel = some info) :
    (subscribeOnceModel s channel timerId dec onSuccess wrapCb).1.subInfo channel =
      some { callbacks := setAdd info.callbacks onSuccess,
             errCallbacks := setAdd info.errCallbacks wrapCb,
             timeouts := info.timeouts ++ [timerId],
             decode := info.decode } ∧
    (∀ behav message data, info.decode message = .ok data →
      ∀ cb ∈ setAdd info.callbacks onSuccess,
        MuxEv.invokeSuccess cb data ∈
          (onMessageModel behav
            (subscribeOnceModel s channel timerId dec onSuccess wrapCb).1
            channel message).2) := by
  have hjoin : (subscribeOnceModel s channel timerId dec onSuccess wrapCb).1.subInfo
      channel = some { callbacks := setAdd info.callbacks onSuccess,
                       errCallbacks := setAdd info.errCallbacks wrapCb,
                       timeouts := info.timeouts ++ [timerId],
                       decode := info.decode } := by
    unfold subscribeOnceModel
    rw [hs]
    simp
  refine ⟨hjoin, ?_⟩
  intro behav message data hd cb hcb
  rw [onMessageModel_entry_ok behav _ channel message _ data hjoin hd]
  simp only [List.cons_append, List.mem_cons, List.mem_append]
  exact Or.inr (Or.inl (Or.inl
    (invokeSuccess_mem_invokeSuccessList behav _ data cb hcb)))

/-- C8: a fetcher whose fetch succeeds resolves with the in-memory value
itself, whatever the options — in particular with any custom `decode`,
including one that always throws (the codec is never applied to the
fetcher's own return value); and a throwing decode on a delivered message
reaches only the error listeners of that channel (every error listener's
wrapper is called, no success callback is invoked), without escaping the
message handler. -/
theorem C8_fetcher_returns_memory_value {T U : Type} (ctx : JsCtx T)
    (envs : Nat → AttemptEnv T) (opt : MemolockOpt T) (key : String)
    (attempts : Nat) (v : T)
    (hacq : (envs attempts).acquired = true)
    (hfetch : (envs attempts).fetch = .ok v) :
    (getLockOrWaitForLockModel ctx envs opt key false attempts).result = .ok v ∧
    (∀ (behav : Nat → Option JsError) (s : MuxState U) (ch msg : String)
        (info : SubEntry U) (err : JsError),
      s.subInfo ch = some info → info.decode msg = .error err →
      (∀ cb ∈ info.errCallbacks, MuxEv.wrapperCall cb false (some err) ∈
        (onMessageModel behav s ch msg).2) ∧
      (∀ cb (d : U), MuxEv.invokeSuccess cb d ∉ (onMessageModel behav s ch msg).2)) := by
  constructor
  · rw [getLockOrWaitForLockModel]
    by_cases hc : cacheIfApplied opt v = true <;>
      simp [hacq, hfetch, hc]
  · intro behav s ch msg info err hs hd
    constructor
    · intro cb hcb
      rw [onMessageModel_entry_error behav s ch msg info err hs hd]
      simp only [List.cons_append, List.mem_cons, List.mem_append]
      exact Or.inr (Or.inl (Or.inl
        (wrapperCall_mem_fireErrList behav info.errCallbacks _ false (some err) cb hcb)))
    · intro cb d
      rw [onMessageModel_entry_error behav s ch msg info err hs hd]
      simp only [List.cons_append, List.mem_cons, List.mem_append]
      intro h
      rcases h with h | (h | h) | h
      · cases h
      · exact invokeSuccess_not_mem_fireErrList behav info.errCallbacks _ false
          (some err) cb d h
      · rcases List.mem_map.mp h with ⟨t, _, ht⟩
        cases ht
      · simp at h

/-- C9 (amended): once a run of `getLockOrWaitForLock` settles, the key is
out of `isLockedCache`, and the same holds for a full `get` provided the
key was not in `isLockedCache` when it started (a cache hit leaves the set
untouched, so with a concurrent waiter holding the key a hit can settle
while the key stays in the set). -/
theorem C9_lock_released_after_settle {T : Type} (ctx : JsCtx T)
    (envs : Nat → AttemptEnv T) (opt : MemolockOpt T) (key : String)
    (attempts : Nat) (locked : Bool) :
    (getModel ctx envs opt key false attempts).lockedAfter = false ∧
    (getLockOrWaitForLockModel ctx envs opt key locked attempts).lockedAfter =
      false := by
  constructor
  · exact (run_props_aux ctx envs opt key (maxAttemptsOf opt - attempts)
      attempts false (le_refl _)).1.2.2 rfl
  · exact (run_props_aux ctx envs opt key (maxAttemptsOf opt - attempts)
      attempts locked (le_refl _)).2.2.2



/-! ## Claims about the coordinator (C1, C2, C4, C7) -/

/-- C1: every pipelined batch dispatched by a run of `get` comes from a
successful fetch, and is exactly `SET key encoded PX ttlMs; PUBLISH
key_done encoded; DEL key:lock` when `cacheIf(value)` holds (or `cacheIf`
is absent), and exactly `PUBLISH key_done encoded; DEL key:lock` otherwise;
in either batch a publish is immediately followed by `DEL key:lock`. -/
theorem C1_pipeline_shape {T : Type} (ctx : JsCtx T) (envs : Nat → AttemptEnv T)
    (opt : MemolockOpt T) (key : String) (locked : Bool) (attempts : Nat)
    (cmds : List RedisCmd)
    (hmem : Ev.pipeline cmds ∈ (getModel ctx envs opt key locked attempts).trace) :
    PipelineShape ctx envs opt key cmds ∧
    (∀ i ch payload, cmds.get? i = some (.publish ch payload) →
      cmds.get? (i + 1) = some (.del (key ++ ":lock"))) := by
  have hshape := (run_props_aux ctx envs opt key (maxAttemptsOf opt - attempts)
    attempts locked (le_refl _)).1.1 cmds hmem
  refine ⟨hshape, ?_⟩
  rcases hshape with ⟨k, v, hf, ⟨hc, rfl⟩ | ⟨hc, rfl⟩⟩ <;>
    intro i ch payload hi
  · match i with
    | 0 => simp at hi
    | 1 => simp
    | 2 => simp at hi
    | (n + 3) => simp at hi
  · match i with
    | 0 => simp
    | 1 => simp at hi
    | (n + 2) => simp at hi

/-- C2: when a waiter's one-shot subscription ends in its `onError`
(timeout, upstream failure, or decode error), the whole `get` sequence is
re-entered with `attempts + 1` — its trace becoming a suffix of the
current one and opening with a fresh cache read (unless `forceRefresh`) —
precisely when `attempts + 1 < maxAttempts`, and otherwise the call
rejects with exactly `"Never received message that key was unlocked."`;
moreover the index of the last attempt of any `get` stays below
`maxAttempts`, so a caller never observes more than `maxAttempts`
attempts. -/
theorem C2_waiter_retry_or_reject {T : Type} (ctx : JsCtx T)
    (envs : Nat → AttemptEnv T) (opt : MemolockOpt T) (key : String)
    (locked : Bool) (attempts : Nat)
    (hlocked : locked = true ∨ (envs attempts).acquired = false)
    (herr : waiterErrors ctx opt (envs attempts) = true) :
    (attempts + 1 < maxAttemptsOf opt →
      (getLockOrWaitForLockModel ctx envs opt key locked attempts).result =
        (getModel ctx envs opt key false (attempts + 1)).result ∧
      (∃ pre, (getLockOrWaitForLockModel ctx envs opt key locked attempts).trace =
        pre ++ (getModel ctx envs opt key false (attempts + 1)).trace) ∧
      (opt.forceRefresh = false →
        ∃ rest, (getModel ctx envs opt key false (attempts + 1)).trace =
          Ev.getCache key (envs (attempts + 1)).cached :: rest)) ∧
    (¬ attempts + 1 < maxAttemptsOf opt →
      (getLockOrWaitForLockModel ctx envs opt key locked attempts).result =
        .error ⟨"Never received message that key was unlocked."⟩) ∧
    (∀ a0, 1 ≤ maxAttemptsOf opt → a0 < maxAttemptsOf opt →
      (getModel ctx envs opt key locked a0).lastAttempt < maxAttemptsOf opt) := by
  have hL : (locked || !(envs attempts).acquired) = true := by
    rcases hlocked with h | h <;> simp [h]
  refine ⟨?_, ?_, ?_⟩
  · intro hlt
    have hr : attempts < maxAttemptsOf opt - 1 := by omega
    refine ⟨?_, ?_, ?_⟩
    · rw [getLockOrWaitForLockModel]
      rcases hw : (envs attempts).waiter with payload | _
      · rcases hd : doDecode ctx opt payload with e | d
        · simp [hL, hw, hd, hr]
        · simp [waiterErrors, hw, hd] at herr
      · simp [hL, hw, hr]
    · rw [getLockOrWaitForLockModel]
      rcases hw : (envs attempts).waiter with payload | _
      · rcases hd : doDecode ctx opt payload with e | d
        · simp [hL, hw, hd, hr]
          refine ⟨(if locked = true then [] else
            [Ev.setNx (key ++ ":lock") (lockTimeoutOf opt)
              (envs attempts).acquired]) ++
            [Ev.subscribeOnceEv (key ++ "_done") (lockTimeoutOf opt)], by simp⟩
        · simp [waiterErrors, hw, hd] at herr
      · simp [hL, hw, hr]
        refine ⟨(if locked = true then [] else
          [Ev.setNx (key ++ ":lock") (lockTimeoutOf opt)
            (envs attempts).acquired]) ++
          [Ev.subscribeOnceEv (key ++ "_done") (lockTimeoutOf opt)], by simp⟩
    · intro hF
      rw [getModel]
      by_cases hT : truthy (envs (attempts + 1)).cached = true <;>
        simp [hF, hT]
  · intro hge
    have hr : ¬ attempts < maxAttemptsOf opt - 1 := by omega
    rw [getLockOrWaitForLockModel]
    rcases hw : (envs attempts).waiter with payload | _
    · rcases hd : doDecode ctx opt payload with e | d
      · simp [hL, hw, hd, hr]
      · simp [waiterErrors, hw, hd] at herr
    · simp [hL, hw, hr]
  · intro a0 hmax ha0
    exact (run_props_aux ctx envs opt key (maxAttemptsOf opt - a0) a0 locked
      (le_refl _)).1.2.1 ha0

/-- C4 (amended): when the fetch throws, a best-effort `DEL key:lock` is
issued; if that del fails, the `errorHandler` (when configured) is invoked
with the original fetch error — the del's own error is discarded — and
nothing is thrown to the caller; the key leaves `isLockedCache`; and the
call rejects with the original fetch error verbatim. -/
theorem C4_fetch_failure_cleanup {T : Type} (ctx : JsCtx T)
    (envs : Nat → AttemptEnv T) (opt : MemolockOpt T) (key : String)
    (attempts : Nat) (err : JsError)
    (hacq : (envs attempts).acquired = true)
    (hfetch : (envs attempts).fetch = .error err)
    (hhandler : ctx.hasErrorHandler = true) :
    (getLockOrWaitForLockModel ctx envs opt key false attempts).result =
      .error err ∧
    (getLockOrWaitForLockModel ctx envs opt key false attempts).lockedAfter =
      false ∧
    Ev.delLock (key ++ ":lock") (envs attempts).delResult ∈
      (getLockOrWaitForLockModel ctx envs opt key false attempts).trace ∧
    (getLockOrWaitForLockModel ctx envs opt key false
        attempts).trace.filter Ev.isHandlerError =
      (if (envs attempts).delResult.isSome then [Ev.handlerError err] else []) := by
  rw [getLockOrWaitForLockModel]
  rcases hdel : (envs attempts).delResult with _ | e2 <;>
    simp [hacq, hfetch, hdel, hhandler, Ev.isHandlerError, List.filter]

/-- C4 (counterexample): with fetch error "fetch boom" and the lock del
failing with "del boom", the `errorHandler` is invoked with the original
fetch error, and the del's own error is never routed to it — contrary to
"the Del failure is routed to the configured errorHandler". -/
theorem C4_del_error_not_routed :
    Ev.handlerError ⟨"del boom"⟩ ∉
      (getLockOrWaitForLockModel jsValueCtx c4Envs c4Opt "K" false 0).trace ∧
    Ev.handlerError ⟨"fetch boom"⟩ ∈
      (getLockOrWaitForLockModel jsValueCtx c4Envs c4Opt "K" false 0).trace := by
  rw [getLockOrWaitForLockModel]
  simp [c4Envs, c4Opt, jsValueCtx]

/-- C7: with the default codec, a fetched value whose `JSON.stringify` is
absent or empty is stored and published as the literal `"null"`, that
string parses back without throwing, and a cache hit on `"null"` with the
default codec resolves to the JSON value `null`. -/
theorem C7_empty_stringify_null {T : Type} (ctx : JsCtx T)
    (envs : Nat → AttemptEnv T) (opt : MemolockOpt T) (key : String)
    (attempts : Nat) (v : T)
    (henc : opt.encode = none)
    (hci : opt.cacheIf = none)
    (hstr : ctx.stringify v = none ∨ ctx.stringify v = some "")
    (hacq : (envs attempts).acquired = true)
    (hfetch : (envs attempts).fetch = .ok v) :
    getEncodedData ctx.stringify v opt.encode = "null" ∧
    Ev.pipeline [.setPx key "null" (getTtlMs v opt.ttlMs),
                 .publish (key ++ "_done") "null",
                 .del (key ++ ":lock")] ∈
      (getLockOrWaitForLockModel ctx envs opt key false attempts).trace ∧
    jsParse "null" = .ok (JsValue.json Json.null) ∧
    (∀ (envs2 : Nat → AttemptEnv JsValue) (opt2 : MemolockOpt JsValue)
        (k2 : String) (a2 : Nat),
      opt2.decode = none → opt2.forceRefresh = false →
      (envs2 a2).cached = some "null" →
      (getModel jsValueCtx envs2 opt2 k2 false a2).result =
        .ok (JsValue.json Json.null)) := by
  have hnull : getEncodedData ctx.stringify v opt.encode = "null" := by
    rcases hstr with h | h <;> simp [getEncodedData, henc, h]
  refine ⟨hnull, ?_, ?_, ?_⟩
  · rw [getLockOrWaitForLockModel]
    simp [hacq, hfetch, cacheIfApplied, hci, hnull]
  · simp [jsParse]
  · intro envs2 opt2 k2 a2 hdec hF hcached
    rw [getModel]
    simp [hF, hcached, truthy, doDecode, hdec, jsValueCtx, jsParse]
    rw [if_neg (by decide)]



/-! ## Witnesses -/

theorem C1_pipeline_shape_witness :
    Ev.pipeline [.setPx "K" "7" 5000, .publish "K_done" "7", .del "K:lock"] ∈
      (getModel jsValueCtx envFetchOk optBase "K" false 0).trace ∧
    PipelineShape jsValueCtx envFetchOk optBase "K"
      [.setPx "K" "7" 5000, .publish "K_done" "7", .del "K:lock"] := by
  have hmem : Ev.pipeline [.setPx "K" "7" 5000, .publish "K_done" "7",
      .del "K:lock"] ∈ (getModel jsValueCtx envFetchOk optBase "K" false 0).trace := by
    rw [getModel, getLockOrWaitForLockModel]
    simp [envFetchOk, optBase, jsValueCtx, truthy, cacheIfApplied,
      getEncodedData, getTtlMs, jsStringify, Json.serialize]
    decide
  exact ⟨hmem,
    (C1_pipeline_shape jsValueCtx envFetchOk optBase "K" false 0 _ hmem).1⟩

theorem C2_waiter_retry_or_reject_witness :
    waiterErrors jsValueCtx optOneAttempt (envWaiterFail 0) = true ∧
    ¬ 0 + 1 < maxAttemptsOf optOneAttempt ∧
    (getLockOrWaitForLockModel jsValueCtx envWaiterFail optOneAttempt "K"
        true 0).result =
      .error ⟨"Never received message that key was unlocked."⟩ := by
  have herr : waiterErrors jsValueCtx optOneAttempt (envWaiterFail 0) = true := rfl
  have hbound : ¬ 0 + 1 < maxAttemptsOf optOneAttempt := by decide
  exact ⟨herr, hbound,
    (C2_waiter_retry_or_reject jsValueCtx envWaiterFail optOneAttempt "K" true 0
      (Or.inl rfl) herr).2.1 hbound⟩

theorem C4_fetch_failure_cleanup_witness :
    (c4Envs 0).acquired = true ∧
    (c4Envs 0).fetch = .error ⟨"fetch boom"⟩ ∧
    jsValueCtx.hasErrorHandler = true ∧
    (getLockOrWaitForLockModel jsValueCtx c4Envs c4Opt "K" false 0).result =
      .error ⟨"fetch boom"⟩ :=
  ⟨rfl, rfl, rfl,
    (C4_fetch_failure_cleanup jsValueCtx c4Envs c4Opt "K" 0 ⟨"fetch boom"⟩
      rfl rfl rfl).1⟩

theorem C5_delete_before_callbacks_witness :
    muxStateW.subInfo "K_done" = some muxEntryW ∧
    (onMessageModel (fun _ => none) muxStateW "K_done" "payload").1.subInfo
      "K_done" = none := by
  have hs : muxStateW.subInfo "K_done" = some muxEntryW := by simp [muxStateW]
  exact ⟨hs, (C5_delete_before_callbacks (fun _ => none) muxStateW "K_done"
    "payload" muxEntryW hs).1⟩

theorem C7_empty_stringify_null_witness :
    jsValueCtx.stringify JsValue.undef = none ∧
    (envFetchUndef 0).fetch = .ok JsValue.undef ∧
    Ev.pipeline [.setPx "K" "null" 5000, .publish "K_done" "null",
        .del "K:lock"] ∈
      (getLockOrWaitForLockModel jsValueCtx envFetchUndef optBase "K"
        false 0).trace := by
  have h := C7_empty_stringify_null jsValueCtx envFetchUndef optBase "K" 0
    JsValue.undef rfl rfl (Or.inl rfl) rfl rfl
  refine ⟨rfl, rfl, ?_⟩
  have h2 := h.2.1
  simpa [getTtlMs, optBase] using h2

theorem C8_fetcher_returns_memory_value_witness :
    (envFetchOk 0).acquired = true ∧
    (envFetchOk 0).fetch = .ok (JsValue.json (Json.num 7)) ∧
    (getLockOrWaitForLockModel jsValueCtx envFetchOk optDecodeThrows "K"
        false 0).result = .ok (JsValue.json (Json.num 7)) :=
  ⟨rfl, rfl, (C8_fetcher_returns_memory_value (U := Nat) jsValueCtx envFetchOk
    optDecodeThrows "K" 0 (JsValue.json (Json.num 7)) rfl rfl).1⟩

theorem C10_first_decode_wins_witness :
    muxStateW.subInfo "K_done" = some muxEntryW ∧
    (subscribeOnceModel muxStateW "K_done" 6 (fun _ => .error ⟨"other"⟩)
        3 4).1.subInfo "K_done" =
      some { callbacks := setAdd muxEntryW.callbacks 3,
             errCallbacks := setAdd muxEntryW.errCallbacks 4,
             timeouts := muxEntryW.timeouts ++ [6],
             decode := muxEntryW.decode } := by
  have hs : muxStateW.subInfo "K_done" = some muxEntryW := by simp [muxStateW]
  exact ⟨hs, (C10_first_decode_wins muxStateW "K_done" 6
    (fun _ => .error ⟨"other"⟩) 3 4 muxEntryW hs).1⟩


end Memolock
